import Mathlib

/-
Verification of the NextcloudClient protocol layer (nextcloud.py).

The embedding works over `Str := List Char` (Python `str` values).  Python
string primitives used by the client (`replace`, `splitlines`, `split`,
`strip`, `lower`, `upper`, `title`, `in`, `os.path.basename`,
`urllib.parse.unquote`) are modelled character-by-character below.  Unicode
case mapping and multi-byte UTF-8 percent-decoding are modelled at the
code-point level (faithful for ASCII data, which is all the claims touch).
-/

abbrev Str := List Char

/-- Python `s.lower()`, code-point case mapping. -/
def pyLower (s : Str) : Str := s.map Char.toLower

/-- Python `s.upper()`, code-point case mapping. -/
def pyUpper (s : Str) : Str := s.map Char.toUpper

/-- Python whitespace for default `strip()` (ASCII part). -/
def isPySpace (c : Char) : Bool :=
  c = ' ' || c = '\t' || c = '\n' || c = '\r' || c = '\x0b' || c = '\x0c'

/-- Python `s.strip()`. -/
def pyStrip (s : Str) : Str :=
  ((s.dropWhile isPySpace).reverse.dropWhile isPySpace).reverse

/-- Python `s.lstrip('/')`. -/
def lstripSlash (s : Str) : Str := s.dropWhile (fun c => c = '/')

/-- Python `s.rstrip('/')`. -/
def rstripSlash (s : Str) : Str :=
  (s.reverse.dropWhile (fun c => c = '/')).reverse

/-- Python `os.path.basename`: the part after the last '/'. -/
def basename (s : Str) : Str :=
  (s.reverse.takeWhile (fun c => c ≠ '/')).reverse

/-- Python `needle in hay` on strings (substring test). -/
def strContains (needle : Str) : Str → Bool
  | [] => needle.isEmpty
  | c :: rest => needle.isPrefixOf (c :: rest) || strContains needle rest

/-- Python `str(n)` for a non-negative integer. -/
def natStr (n : Nat) : Str := (Nat.repr n).data

/-- One step of Python `s.replace(pat, rep)` scanning, with explicit fuel
(the fuel is only a termination device; `s.length` steps always suffice). -/
def pyReplaceGo (pat rep : Str) : Nat → Str → Str
  | 0, s => s
  | _ + 1, [] => []
  | fuel + 1, c :: rest =>
    if pat.isPrefixOf (c :: rest) && !pat.isEmpty then
      rep ++ pyReplaceGo pat rep fuel ((c :: rest).drop pat.length)
    else
      c :: pyReplaceGo pat rep fuel rest

/-- Python `s.replace(pat, rep)` (left-to-right, non-overlapping; the client
never calls it with an empty pattern). -/
def pyReplace (s pat rep : Str) : Str := pyReplaceGo pat rep s.length s

/-- Python line boundary characters recognized by `splitlines`
(`\r\n` is handled as a unit in `splitlinesGo`). -/
def isLineBoundary (c : Char) : Bool :=
  c = '\n' || c = '\r' || c = '\x0b' || c = '\x0c' ||
  c = '\x1c' || c = '\x1d' || c = '\x1e' || c = '\x85' ||
  c = '\u2028' || c = '\u2029'

/-- Worker for Python `s.splitlines()`: `acc` is the current line reversed. -/
def splitlinesGo : Str → Str → List Str
  | [], acc => [acc.reverse]
  | ['\r'], acc => [acc.reverse]
  | '\r' :: '\n' :: rest2, acc =>
    if rest2.isEmpty then [acc.reverse] else acc.reverse :: splitlinesGo rest2 []
  | '\r' :: c :: rest, acc => acc.reverse :: splitlinesGo (c :: rest) []
  | c :: rest, acc =>
    if isLineBoundary c then
      if rest.isEmpty then [acc.reverse] else acc.reverse :: splitlinesGo rest []
    else
      splitlinesGo rest (c :: acc)

/-- Python `s.splitlines()`. -/
def splitlines (s : Str) : List Str :=
  if s.isEmpty then [] else splitlinesGo s []

/-- Python `s.split(sep, 1)`: text before the first `sep`, and the rest
(`none` when `sep` does not occur). -/
def pySplitOnce (sep : Char) : Str → Str × Option Str
  | [] => ([], none)
  | c :: rest =>
    if c = sep then ([], some rest)
    else
      match pySplitOnce sep rest with
      | (a, b) => (c :: a, b)

/-- Python `s.split(sep)` for a single-character separator. -/
def pySplitChar (sep : Char) : Str → List Str
  | [] => [[]]
  | c :: rest =>
    if c = sep then [] :: pySplitChar sep rest
    else
      match pySplitChar sep rest with
      | h :: t => (c :: h) :: t
      | [] => [[c]]

/-- Worker for Python `s.title()`: the Bool records whether the previous
character was alphabetic (cased). -/
def pyTitleGo : Bool → Str → Str
  | _, [] => []
  | prev, c :: rest =>
    (if c.isAlpha then (if prev then c.toLower else c.toUpper) else c) ::
      pyTitleGo c.isAlpha rest

/-- Python `s.title()`. -/
def pyTitle (s : Str) : Str := pyTitleGo false s

/-- Hex digit value, if any (0-9 are code points 48-57, a-f are 97-102,
A-F are 65-70). -/
def hexVal (c : Char) : Option Nat :=
  let n := c.toNat
  if 48 ≤ n && n ≤ 57 then some (n - 48)
  else if 97 ≤ n && n ≤ 102 then some (n - 87)
  else if 65 ≤ n && n ≤ 70 then some (n - 55)
  else none

/-- Python `urllib.parse.unquote` at the code-point level: a valid `%xy`
escape becomes the character with that value, anything else is kept verbatim
(multi-byte UTF-8 sequences are not recombined). -/
def unquote : Str → Str
  | [] => []
  | '%' :: h1 :: h2 :: rest =>
    match hexVal h1, hexVal h2 with
    | some a, some b => Char.ofNat (16 * a + b) :: unquote rest
    | _, _ => '%' :: unquote (h1 :: h2 :: rest)
  | c :: rest => c :: unquote rest

/-- Lexicographic comparison of strings by code point, as Python `<=` used by
`list.sort`. -/
def lexLe : Str → Str → Bool
  | [], _ => true
  | _ :: _, [] => false
  | a :: as, b :: bs => if a < b then true else if b < a then false else lexLe as bs

/-- Nonempty test, i.e. Python truthiness of a string. -/
def strNonEmpty : Str → Bool
  | [] => false
  | _ :: _ => true

/-- Python truthiness of an optional string (`None` and `""` are falsy). -/
def optStrTruthy : Option Str → Bool
  | none => false
  | some s => strNonEmpty s

/-- Rendering of an optional string in an f-string (`None` prints as "None"). -/
def optStr : Option Str → Str
  | some s => s
  | none => ['N', 'o', 'n', 'e']

/-- Integer denotation of a decimal numeral string (optional leading '-'). -/
def digitsVal (s : Str) : Nat :=
  s.foldl (fun acc c => 10 * acc + (c.toNat - '0'.toNat)) 0

/-- Signed integer denotation of a numeral string. -/
def strIntVal : Str → Int
  | '-' :: rest => -(digitsVal rest : Int)
  | s => (digitsVal s : Int)

/-- Stable insertion used to model Python `list.sort`: a new element goes
after every existing element that compares `le` to it. -/
def insertSorted (le : α → α → Bool) (a : α) : List α → List α
  | [] => [a]
  | b :: bs => if le b a then b :: insertSorted le a bs else a :: b :: bs

/-- Python `list.sort` with comparison `le`: a stable sort (insertion sort is
stable, and a stable sort's output is determined by `le` alone when `le` is a
total preorder, so this agrees with CPython's Timsort). -/
def pySort (le : α → α → Bool) (l : List α) : List α :=
  l.foldl (fun acc x => insertSorted le x acc) []

/-
XML documents as parsed by `xml.etree.ElementTree`, restricted to what the
client reads: tag, text (the text before the first child, `None` when
absent), children.  `find`/`findall` search direct children by tag, as the
client's `find('\x7bDAV:\x7d...')` calls do.
-/

inductive Xml where
  | elem (tag : Str) (text : Option Str) (children : List Xml)

def Xml.tag : Xml → Str
  | .elem t _ _ => t

def Xml.text? : Xml → Option Str
  | .elem _ tx _ => tx

def Xml.children : Xml → List Xml
  | .elem _ _ cs => cs

def Xml.find (x : Xml) (t : Str) : Option Xml :=
  x.children.find? (fun c => c.tag == t)

def Xml.findall (x : Xml) (t : Str) : List Xml :=
  x.children.filter (fun c => c.tag == t)

/-- JSON values as decoded by `response.json()`. -/
inductive Json where
  | null
  | bool (b : Bool)
  | num (n : Int)
  | str (s : Str)
  | arr (elems : List Json)
  | obj (fields : List (Str × Json))

instance : Inhabited Json := ⟨Json.null⟩

/-- Python exceptions the client code can raise. -/
inductive PyExc where
  | httpError (status : Nat)
  | xmlParseError (msg : Str)
  | jsonParseError (msg : Str)
  | attributeError
  | typeError
  | keyError (key : Str)
deriving DecidableEq, Repr

/-- Python `str(e)` for the exceptions above (the exact rendering is opaque
to every claim; only its presence inside error messages matters). -/
def PyExc.str : PyExc → Str
  | .httpError n => ("HTTPError ".data) ++ natStr n
  | .xmlParseError m => m
  | .jsonParseError m => m
  | .attributeError => "AttributeError".data
  | .typeError => "TypeError".data
  | .keyError k => k

/-- An HTTP response as the client sees it: status code, body text, and the
results of handing the body to the external XML/JSON parsers (`.error` means
the body is malformed for that parser). -/
structure HttpResponse where
  status : Nat
  text : Str
  xml : Except Str Xml
  json : Except Str Json

/-- `response.raise_for_status()`: raises for status codes >= 400. -/
def raise_for_status (r : HttpResponse) : Except PyExc Unit :=
  if 400 ≤ r.status then .error (.httpError r.status) else .ok ()

/-- `etree.fromstring(response.content)` as an exception-producing step. -/
def fromstring (r : HttpResponse) : Except PyExc Xml :=
  match r.xml with
  | .ok t => .ok t
  | .error m => .error (.xmlParseError m)

/-- `response.json()` as an exception-producing step. -/
def getJson (r : HttpResponse) : Except PyExc Json :=
  match r.json with
  | .ok j => .ok j
  | .error m => .error (.jsonParseError m)

/-- Python `d[k]` on a decoded JSON value: KeyError on a dict without the
key, TypeError on anything that is not a dict. -/
def jsonItem (j : Json) (k : Str) : Except PyExc Json :=
  match j with
  | .obj kvs =>
    match (kvs.filter (fun kv => kv.1 == k)).getLast? with
    | some kv => .ok kv.2
    | none => .error (.keyError k)
  | _ => .error .typeError

/-- Python `str(x)` of an integer. -/
def intStr (n : Int) : Str :=
  if n < 0 then '-' :: natStr n.natAbs else natStr n.natAbs

/-- Python `str(x)` of a decoded JSON scalar as interpolated by f-strings
(container values never reach an f-string in any claim; their rendering is
abbreviated). -/
def pyStrJson : Json → Str
  | .str s => s
  | .num n => intStr n
  | .bool true => "True".data
  | .bool false => "False".data
  | .null => "None".data
  | .arr _ => "[...]".data
  | .obj _ => ['\x7b', '.', '.', '.', '\x7d']

/-- Python `for x in j`: lists yield elements, dicts yield their keys,
strings yield characters, anything else raises TypeError. -/
def jsonIter (j : Json) : Except PyExc (List Json) :=
  match j with
  | .arr l => .ok l
  | .obj kvs => .ok (kvs.map (fun kv => Json.str kv.1))
  | .str s => .ok (s.map (fun c => Json.str [c]))
  | _ => .error .typeError

/- DAV tags searched by the client (`\x7b` and `\x7d` are the braces of the
Clark notation literals in the source). -/

def tagResponse : Str := "\x7bDAV:\x7dresponse".data

def tagHref : Str := "\x7bDAV:\x7dhref".data

def tagPropstat : Str := "\x7bDAV:\x7dpropstat".data

def tagProp : Str := "\x7bDAV:\x7dprop".data

def tagResourcetype : Str := "\x7bDAV:\x7dresourcetype".data

def tagCollection : Str := "\x7bDAV:\x7dcollection".data

def tagDisplayname : Str := "\x7bDAV:\x7ddisplayname".data

def tagGetcontentlength : Str := "\x7bDAV:\x7dgetcontentlength".data

def tagAddressData : Str := "\x7burn:ietf:params:xml:ns:carddav\x7daddress-data".data

/- Message fragments used verbatim by the client. -/

def sNL : Str := "\n".data

def sSpace1 : Str := " ".data

def sZero : Str := "0".data

def sVcf : Str := ".vcf".data

def sDash : Str := "-".data

def sCRNLSpace : Str := "\r\n ".data

def sNLSpace : Str := "\n ".data

def sCommaSpace : Str := ", ".data

def sFN : Str := "FN".data

def sEMAIL : Str := "EMAIL".data

def sTEL : Str := "TEL".data

def sORG : Str := "ORG".data

def sNOTE : Str := "NOTE".data

def sADR : Str := "ADR".data

def sIdKey : Str := "id".data

def sTitleKey : Str := "title".data

def sCategoryKey : Str := "category".data

def sContentKey : Str := "content".data

def sDescriptionKey : Str := "description".data

def sOrderKey : Str := "order".data

def sDuedateKey : Str := "duedate".data

def sArchivedKey : Str := "archived".data

def sColorKey : Str := "color".data

def sNotFound : Str := "not found".data

/--
Contact record produced by `_parse_vcard` (a Python dict whose keys may be
absent; `none` models an absent key).
-/
structure Contact where
  fn : Option Str := none
  email : Option Str := none
  tel : Option Str := none
  org : Option Str := none
  note : Option Str := none
  adr : Option Str := none
  href : Option Str := none
deriving DecidableEq, Repr

/-- One iteration of the `for line in lines` loop of `_parse_vcard`:
split on the first ':', uppercase the name before the first ';', strip the
value, store it under the matching recognized property. -/
def vcardLine (data : Contact) (line : Str) : Contact :=
  match pySplitOnce ':' line with
  | (_, none) => data
  | (key, some v) =>
    let key_name := pyUpper ((pySplitChar ';' key).headD [])
    let val := pyStrip v
    if key_name = sFN then { data with fn := some val }
    else if key_name = sEMAIL then { data with email := some val }
    else if key_name = sTEL then { data with tel := some val }
    else if key_name = sORG then { data with org := some val }
    else if key_name = sNOTE then { data with note := some val }
    else if key_name = sADR then
      { data with adr := some (List.intercalate sCommaSpace ((pySplitChar ';' val).filter strNonEmpty)) }
    else data

/-- `NextcloudClient._parse_vcard`: unfold folded lines by deleting
`"\r\n "` and `"\n "`, split into lines, and process each line in order. -/
def _parse_vcard (vcard_text : Str) : Contact :=
  (splitlines (pyReplace (pyReplace vcard_text sCRNLSpace []) sNLSpace [])).foldl vcardLine {}

/-- File record built by `list_files` / `list_files_raw` (`name` and `size`
are whatever the XML carried and may be Python `None`). -/
structure FileItem where
  name : Option Str
  href : Str
  is_directory : Bool
  size : Option Str
deriving DecidableEq, Repr

/-- Extraction of one `\x7bDAV:\x7dresponse` element inside the `try` block of
`list_files` / `list_files_raw`; `.error` is an exception flying to the
enclosing `except`. -/
def fileItemOfElem (e : Xml) : Except PyExc FileItem :=
  match e.find tagHref with
  | none => .error .attributeError
  | some hrefEl =>
    match hrefEl.text? with
    | none => .error .typeError
    | some hrefTx =>
      let href := unquote hrefTx
      match e.find tagPropstat with
      | none => .error .attributeError
      | some ps =>
        match ps.find tagProp with
        | none => .error .attributeError
        | some p =>
          let is_collection :=
            match p.find tagResourcetype with
            | some rt => (rt.find tagCollection).isSome
            | none => false
          let name :=
            match p.find tagDisplayname with
            | some dn => dn.text?
            | none => some (basename (rstripSlash href))
          let size :=
            match p.find tagGetcontentlength with
            | some cl => cl.text?
            | none => some sZero
          .ok { name := name, href := href, is_directory := is_collection, size := size }

/-- The `for response_elem in tree.findall(...)` loop collecting file items
(an exception in any iteration aborts the whole loop). -/
def collectFileItems : List Xml → Except PyExc (List FileItem)
  | [] => .ok []
  | e :: rest =>
    match fileItemOfElem e with
    | .error ex => .error ex
    | .ok it =>
      match collectFileItems rest with
      | .error ex => .error ex
      | .ok more => .ok (it :: more)

/-- The body of the `try` block shared by `list_files` and `list_files_raw`:
parse the XML and collect the items. -/
def list_files_try (resp : HttpResponse) : Except PyExc (List FileItem) :=
  match fromstring resp with
  | .error ex => .error ex
  | .ok tree => collectFileItems (tree.findall tagResponse)

def sPathErrA : Str := "Error: Path '".data

def sPathErrB : Str := "' not found.".data

def sXmlErrPrefix : Str := "Error parsing WebDAV response: ".data

def sListingA : Str := "Listing of ".data

def sListingB : Str := ":\n".data

def sDIR : Str := "[DIR]".data

def sFILE : Str := "[FILE]".data

def sFileLineMid : Str := " (".data

def sFileLineEnd : Str := " bytes)\n".data

/-- One output line of `list_files`. -/
def fileLine (it : FileItem) : Str :=
  (if it.is_directory then sDIR else sFILE) ++ sSpace1 ++ optStr it.name ++
    sFileLineMid ++ optStr it.size ++ sFileLineEnd

/-- `NextcloudClient.list_files` (the PROPFIND response is the input; network
transport is outside the model). -/
def list_files (path : Str) (resp : HttpResponse) : Except PyExc Str :=
  let path := lstripSlash path
  if resp.status = 404 then .ok (sPathErrA ++ path ++ sPathErrB)
  else do
    raise_for_status resp
    match list_files_try resp with
    | .ok items => .ok (sListingA ++ path ++ sListingB ++ (items.map fileLine).flatten)
    | .error e => .ok (sXmlErrPrefix ++ e.str)

/-- `NextcloudClient.list_files_raw`. -/
def list_files_raw (path : Str) (resp : HttpResponse) :
    Except PyExc (Option (List FileItem) × Option Str) :=
  let path := lstripSlash path
  if resp.status = 404 then .ok (none, some (sPathErrA ++ path ++ sPathErrB))
  else do
    raise_for_status resp
    match list_files_try resp with
    | .ok items => .ok (some items, none)
    | .error e => .ok (none, some (sXmlErrPrefix ++ e.str))

def sErrFileA : Str := "Error: File '".data

def sErrFileB : Str := "' not found.".data

def sDeletedA : Str := "Successfully deleted '".data

def sDeletedB : Str := "'.".data

/-- `NextcloudClient.read_file`. -/
def read_file (path : Str) (resp : HttpResponse) : Except PyExc Str :=
  let path := lstripSlash path
  if resp.status = 404 then .ok (sErrFileA ++ path ++ sErrFileB)
  else do
    raise_for_status resp
    .ok resp.text

/-- `NextcloudClient.delete_file`. -/
def delete_file (path : Str) (resp : HttpResponse) : Except PyExc Str :=
  let path := lstripSlash path
  if resp.status = 404 then .ok (sErrFileA ++ path ++ sErrFileB)
  else do
    raise_for_status resp
    .ok (sDeletedA ++ path ++ sDeletedB)

def sNotesNotFound : Str := "Notes app not found or not enabled on this Nextcloud instance.".data

def sNotesHdr : Str := "Notes:\n".data

def sNoteLineA : Str := "- ID: ".data

def sNoteLineB : Str := ", Title: ".data

def sNoteLineC : Str := ", Category: ".data

/-- The `for note in notes` loop body of `list_notes`. -/
def listNotesLines : List Json → Except PyExc Str
  | [] => .ok []
  | n :: rest => do
    let i ← jsonItem n sIdKey
    let t ← jsonItem n sTitleKey
    let c ← jsonItem n sCategoryKey
    let more ← listNotesLines rest
    .ok (sNoteLineA ++ pyStrJson i ++ sNoteLineB ++ pyStrJson t ++ sNoteLineC ++
      pyStrJson c ++ sNL ++ more)

/-- `NextcloudClient.list_notes`: note that `response.json()` is called with
no surrounding `try`, so a JSON parse failure propagates. -/
def list_notes (resp : HttpResponse) : Except PyExc Str :=
  if resp.status = 404 then .ok sNotesNotFound
  else do
    raise_for_status resp
    let notes ← getJson resp
    let items ← jsonIter notes
    let body ← listNotesLines items
    .ok (sNotesHdr ++ body)

def sGetNoteA : Str := "Title: ".data

def sGetNoteB : Str := "\nCategory: ".data

def sGetNoteC : Str := "\nContent:\n".data

/-- `NextcloudClient.get_note`: no 404 check, no `try` around the parse. -/
def get_note (resp : HttpResponse) : Except PyExc Str := do
  raise_for_status resp
  let note ← getJson resp
  let t ← jsonItem note sTitleKey
  let c ← jsonItem note sCategoryKey
  let content ← jsonItem note sContentKey
  .ok (sGetNoteA ++ pyStrJson t ++ sGetNoteB ++ pyStrJson c ++ sGetNoteC ++ pyStrJson content)

def sNoteDelA : Str := "Note ".data

def sNoteDelB : Str := " deleted.".data

/-- `NextcloudClient.delete_note`: no 404 check before `raise_for_status`. -/
def delete_note (note_id : Str) (resp : HttpResponse) : Except PyExc Str := do
  raise_for_status resp
  .ok (sNoteDelA ++ note_id ++ sNoteDelB)

deriving instance DecidableEq for Except

/-- Search test of `list_contacts_raw`: case-insensitive substring match of
the term against fn, email and tel (OR of the three). -/
def matchContact (term : Str) (c : Contact) : Bool :=
  let t := pyLower term
  strContains t (pyLower (c.fn.getD [])) ||
  strContains t (pyLower (c.email.getD [])) ||
  strContains t (pyLower (c.tel.getD []))

/-- Sort key of `list_contacts_raw`: `x.get('fn', '').lower()`. -/
def contactKey (c : Contact) : Str := pyLower (c.fn.getD [])

/-- Comparison realizing `contacts.sort(key=...)` on the REPORT path. -/
def contactLe (c d : Contact) : Bool := lexLe (contactKey c) (contactKey d)

/-- Comparison of the PROPFIND fallback sort (`key=lambda x: x['fn']`, no
lowercasing; `fn` is always present on that path). -/
def fallbackLe (c d : Contact) : Bool := lexLe (c.fn.getD []) (d.fn.getD [])

/-- Processing of one REPORT `response` element in `list_contacts_raw`:
extract the embedded vcard, parse it, attach the href basename, and apply
the search filter; `.error` is an exception flying to the outer `except`. -/
def contactOfElem (search_term : Option Str) (e : Xml) : Except PyExc (Option Contact) :=
  match e.find tagHref with
  | none => .error .attributeError
  | some hrefEl =>
    let href := hrefEl.text?
    match e.find tagPropstat with
    | none => .error .attributeError
    | some ps =>
      match ps.find tagProp with
      | none => .error .attributeError
      | some p =>
        match p.find tagAddressData with
        | some ad =>
          match ad.text? with
          | some v =>
            if strNonEmpty v then
              match href with
              | none => .error .typeError
              | some h =>
                let vcard := { _parse_vcard v with href := some (basename h) }
                if optStrTruthy search_term && !(matchContact (search_term.getD []) vcard) then
                  .ok none
                else
                  .ok (some vcard)
            else .ok none
          | none => .ok none
        | none => .ok none

/-- The REPORT-path collection loop of `list_contacts_raw`. -/
def collectContacts (search_term : Option Str) : List Xml → Except PyExc (List Contact)
  | [] => .ok []
  | e :: rest =>
    match contactOfElem search_term e with
    | .error ex => .error ex
    | .ok c? =>
      match collectContacts search_term rest with
      | .error ex => .error ex
      | .ok more =>
        match c? with
        | some c => .ok (c :: more)
        | none => .ok more

/-- Processing of one PROPFIND `response` element on the fallback path of
`list_contacts_raw`: keep `.vcf` resources, derive a display name by
title-casing the dash-split basename. -/
def fallbackOfElem (e : Xml) : Except PyExc (Option Contact) :=
  match e.find tagHref with
  | none => .error .attributeError
  | some hrefEl =>
    match hrefEl.text? with
    | none => .error .attributeError
    | some href =>
      if sVcf.isSuffixOf href then
        .ok (some { fn := some (pyTitle (pyReplace (pyReplace (basename href) sVcf []) sDash sSpace1)),
                    href := some (basename href) })
      else .ok none

/-- The fallback collection loop of `list_contacts_raw`. -/
def collectFallback : List Xml → Except PyExc (List Contact)
  | [] => .ok []
  | e :: rest =>
    match fallbackOfElem e with
    | .error ex => .error ex
    | .ok c? =>
      match collectFallback rest with
      | .error ex => .error ex
      | .ok more =>
        match c? with
        | some c => .ok (c :: more)
        | none => .ok more

/-- Result dict of `list_contacts_raw`. -/
structure ContactsPage where
  contacts : List Contact
  total : Nat
deriving DecidableEq, Repr

def sContactsErrA : Str := "Error listing contacts: ".data

def sContactsErrB : Str := " / ".data

/-- The first `try` block of `list_contacts_raw` (REPORT path). -/
def list_contacts_attempt1 (reportResp : HttpResponse) (page limit : Nat)
    (search_term : Option Str) : Except PyExc ContactsPage :=
  match raise_for_status reportResp with
  | .error ex => .error ex
  | .ok _ =>
    match fromstring reportResp with
    | .error ex => .error ex
    | .ok tree =>
      match collectContacts search_term (tree.findall tagResponse) with
      | .error ex => .error ex
      | .ok cs =>
        let sorted := pySort contactLe cs
        .ok { contacts := (sorted.drop ((page - 1) * limit)).take limit, total := sorted.length }

/-- The second `try` block of `list_contacts_raw` (PROPFIND fallback). -/
def list_contacts_attempt2 (propfindResp : HttpResponse) (page limit : Nat)
    (search_term : Option Str) : Except PyExc ContactsPage :=
  match raise_for_status propfindResp with
  | .error ex => .error ex
  | .ok _ =>
    match fromstring propfindResp with
    | .error ex => .error ex
    | .ok tree =>
      match collectFallback (tree.findall tagResponse) with
      | .error ex => .error ex
      | .ok cs =>
        let cs := if optStrTruthy search_term then
            cs.filter (fun c => strContains (pyLower (search_term.getD [])) (pyLower (c.fn.getD [])))
          else cs
        let sorted := pySort fallbackLe cs
        .ok { contacts := (sorted.drop ((page - 1) * limit)).take limit, total := sorted.length }

/-- `NextcloudClient.list_contacts_raw`: the REPORT attempt runs inside a
`try`; on any exception the PROPFIND fallback runs inside a second `try`;
only if that fails too does the function return an error value.  The two
HTTP responses stand for what the server would answer to the REPORT and to
the fallback PROPFIND. -/
def list_contacts_raw (reportResp propfindResp : HttpResponse) (page limit : Nat)
    (search_term : Option Str) : Option ContactsPage × Option Str :=
  match list_contacts_attempt1 reportResp page limit search_term with
  | .ok r => (some r, none)
  | .error e1 =>
    match list_contacts_attempt2 propfindResp page limit search_term with
    | .ok r => (some r, none)
    | .error e2 => (none, some (sContactsErrA ++ e1.str ++ sContactsErrB ++ e2.str))

def sGetContactErr : Str := "Error getting contact: ".data

/-- `NextcloudClient.get_contact_raw`. -/
def get_contact_raw (resp : HttpResponse) : Option Contact × Option Str :=
  match (do
      raise_for_status resp
      (.ok (_parse_vcard resp.text) : Except PyExc Contact)) with
  | .ok c => (some c, none)
  | .error e => (none, some (sGetContactErr ++ e.str))

/-- The `total_pages` computation of `list_contacts`
(`(total + limit - 1) // limit if limit else 1`). -/
def list_contacts_total_pages (total limit : Nat) : Nat :=
  if limit ≠ 0 then (total + limit - 1) / limit else 1

def sUnknown : Str := "Unknown".data

def sDashSp : Str := "- ".data

def sLt : Str := "<".data

def sGt : Str := ">".data

def sTelA : Str := "[Tel: ".data

def sTelB : Str := "]".data

def sRefA : Str := "(Ref: ".data

def sRefB : Str := ")".data

/-- One output line of `list_contacts` (without the trailing newline). -/
def contactLine (search_term : Option Str) (c : Contact) : Str :=
  let line := sDashSp ++ c.fn.getD sUnknown ++ sSpace1
  let details : List Str :=
    (if optStrTruthy c.email then [sLt ++ c.email.getD [] ++ sGt] else []) ++
    (if optStrTruthy c.tel then [sTelA ++ c.tel.getD [] ++ sTelB] else []) ++
    (if optStrTruthy search_term then [sRefA ++ c.href.getD [] ++ sRefB] else [])
  if details.isEmpty then line else line ++ List.intercalate sSpace1 details

def sCtHdrA : Str := "Contacts in ".data

def sCtHdrB : Str := " (Page ".data

def sSlash : Str := "/".data

def sCtHdrC : Str := ", ".data

def sCtHdrD : Str := " total):\n".data

/-- `NextcloudClient.list_contacts` (`.error` would be the `TypeError` of
subscripting a `None` result, which `list_contacts_raw` never produces). -/
def list_contacts (addressbook_name : Str) (reportResp propfindResp : HttpResponse)
    (page limit : Nat) (search_term : Option Str) : Except PyExc Str :=
  match list_contacts_raw reportResp propfindResp page limit search_term with
  | (result?, error?) =>
    if optStrTruthy error? then .ok (error?.getD [])
    else
      match result? with
      | none => .error .typeError
      | some r =>
        let total_pages := list_contacts_total_pages r.total limit
        .ok (sCtHdrA ++ addressbook_name ++ sCtHdrB ++ natStr page ++ sSlash ++
          natStr total_pages ++ sCtHdrC ++ natStr r.total ++ sCtHdrD ++
          (r.contacts.map (fun c => contactLine search_term c ++ sNL)).flatten)

/-- JSON body of the PUT in `update_deck_card`: `title` is added under a
truthiness test, the other four under an `is not None` test. -/
def update_deck_card_body (title description : Option Str) (order : Option Int)
    (duedate : Option Str) (archived : Option Bool) : List (Str × Json) :=
  (if optStrTruthy title then [(sTitleKey, Json.str (title.getD []))] else []) ++
  (match description with
   | some d => [(sDescriptionKey, Json.str d)]
   | none => []) ++
  (match order with
   | some o => [(sOrderKey, Json.num o)]
   | none => []) ++
  (match duedate with
   | some d => [(sDuedateKey, Json.str d)]
   | none => []) ++
  (match archived with
   | some b => [(sArchivedKey, Json.bool b)]
   | none => [])

/-- JSON body of the PUT in `update_deck_stack`. -/
def update_deck_stack_body (title : Option Str) (order : Option Int) : List (Str × Json) :=
  (if optStrTruthy title then [(sTitleKey, Json.str (title.getD []))] else []) ++
  (match order with
   | some o => [(sOrderKey, Json.num o)]
   | none => [])

/-- JSON body of the PUT in `update_deck_label`: both fields are added under
truthiness tests. -/
def update_deck_label_body (title color : Option Str) : List (Str × Json) :=
  (if optStrTruthy title then [(sTitleKey, Json.str (title.getD []))] else []) ++
  (if optStrTruthy color then [(sColorKey, Json.str (color.getD []))] else [])

def tagMultistatus : Str := "\x7bDAV:\x7dmultistatus".data

/-- A well-formed REPORT `response` element carrying one contact: href text
and embedded `address-data` vcard text. -/
def mkContactElem (hv : Str × Str) : Xml :=
  .elem tagResponse none
    [.elem tagHref (some hv.1) [],
     .elem tagPropstat none [.elem tagProp none [.elem tagAddressData (some hv.2) []]]]

/-- A successful `addressbook-query` REPORT response whose contacts are the
given (href, vcard text) pairs. -/
def mkReportResp (entries : List (Str × Str)) : HttpResponse :=
  { status := 207
    text := []
    xml := .ok (.elem tagMultistatus none (entries.map mkContactElem))
    json := .error [] }

/-- The contact record the REPORT path builds from one (href, vcard) pair. -/
def contactOfPair (hv : Str × Str) : Contact :=
  { _parse_vcard hv.2 with href := some (basename hv.1) }

/-- What the REPORT path makes of one (href, vcard) pair: skipped when the
address data is empty or when the search filter rejects it. -/
def reportContact? (search_term : Option Str) (hv : Str × Str) : Option Contact :=
  if strNonEmpty hv.2 then
    let c := contactOfPair hv
    if optStrTruthy search_term && !(matchContact (search_term.getD []) c) then none
    else some c
  else none

/-- The pre-pagination contact list of the REPORT path: parse every
response with nonempty address data, then apply the search filter. -/
def reportContacts (entries : List (Str × Str)) (search_term : Option Str) : List Contact :=
  entries.filterMap (reportContact? search_term)

/-- The sorted, filtered contact set of the REPORT path. -/
def sortedContacts (entries : List (Str × Str)) (search_term : Option Str) : List Contact :=
  pySort contactLe (reportContacts entries search_term)

/-- Description of one well-formed PROPFIND `response` element for a file
listing: `rtype` is the `resourcetype` element (present?, with a
`collection` child?), `displayname` and `contentlength` are the optional
elements with their optional texts. -/
structure FileSpec where
  href : Str
  rtype : Option Bool
  displayname : Option (Option Str)
  contentlength : Option (Option Str)

/-- The XML `response` element described by a `FileSpec`. -/
def mkFileElem (f : FileSpec) : Xml :=
  .elem tagResponse none
    [.elem tagHref (some f.href) [],
     .elem tagPropstat none
       [.elem tagProp none
         ((match f.rtype with
           | some b => [Xml.elem tagResourcetype none (if b then [Xml.elem tagCollection none []] else [])]
           | none => []) ++
          (match f.displayname with
           | some tx => [Xml.elem tagDisplayname tx []]
           | none => []) ++
          (match f.contentlength with
           | some tx => [Xml.elem tagGetcontentlength tx []]
           | none => []))]]

/-- A successful PROPFIND multistatus response listing the given files. -/
def mkFilesResp (fs : List FileSpec) : HttpResponse :=
  { status := 207
    text := []
    xml := .ok (.elem tagMultistatus none (fs.map mkFileElem))
    json := .error [] }

/-- The record `list_files_raw` builds from a well-formed response element. -/
def itemOfSpec (f : FileSpec) : FileItem :=
  { name :=
      match f.displayname with
      | some tx => tx
      | none => some (basename (rstripSlash (unquote f.href)))
    href := unquote f.href
    is_directory := f.rtype.getD false
    size :=
      match f.contentlength with
      | some tx => tx
      | none => some sZero }

/- Facts about the sort model. -/

theorem insertSorted_perm (le : α → α → Bool) (a : α) :
    ∀ l : List α, List.Perm (insertSorted le a l) (a :: l) := by
  intro l
  induction l with
  | nil => simp [insertSorted]
  | cons b bs ih =>
    by_cases h : le b a = true
    · simp only [insertSorted, h, if_pos]
      exact (ih.cons b).trans (List.Perm.swap a b bs)
    · simp [insertSorted, h]

theorem pySortAux_perm (le : α → α → Bool) :
    ∀ (l acc : List α), List.Perm (l.foldl (fun acc x => insertSorted le x acc) acc) (acc ++ l) := by
  intro l
  induction l with
  | nil => intro acc; simp
  | cons a l ih =>
    intro acc
    have h1 : (a :: l).foldl (fun acc x => insertSorted le x acc) acc
        = l.foldl (fun acc x => insertSorted le x acc) (insertSorted le a acc) := rfl
    rw [h1]
    refine (ih (insertSorted le a acc)).trans ?_
    have h2 : List.Perm (insertSorted le a acc ++ l) ((a :: acc) ++ l) :=
      (insertSorted_perm le a acc).append_right l
    exact h2.trans List.perm_middle.symm

theorem pySort_perm (le : α → α → Bool) (l : List α) : List.Perm (pySort le l) l := by
  simpa [pySort] using pySortAux_perm le l []

theorem mem_insertSorted (le : α → α → Bool) (a x : α) (l : List α) :
    x ∈ insertSorted le a l ↔ x = a ∨ x ∈ l := by
  rw [(insertSorted_perm le a l).mem_iff]
  simp

theorem insertSorted_pairwise (le : α → α → Bool)
    (htrans : ∀ a b c, le a b = true → le b c = true → le a c = true)
    (htot : ∀ a b, le a b = true ∨ le b a = true) (a : α) :
    ∀ l : List α, List.Pairwise (fun x y => le x y = true) l →
      List.Pairwise (fun x y => le x y = true) (insertSorted le a l) := by
  intro l
  induction l with
  | nil => intro _; simp [insertSorted]
  | cons b bs ih =>
    intro hp
    rcases List.pairwise_cons.mp hp with ⟨hb, hbs⟩
    by_cases h : le b a = true
    · simp only [insertSorted, h, if_pos]
      refine List.pairwise_cons.mpr ⟨?_, ih hbs⟩
      intro x hx
      rcases (mem_insertSorted le a x bs).mp hx with rfl | hx
      · exact h
      · exact hb x hx
    · simp only [insertSorted, h, if_neg, if_false]
      have hab : le a b = true := (htot a b).resolve_right (by simpa using h)
      refine List.pairwise_cons.mpr ⟨?_, hp⟩
      intro x hx
      rcases List.mem_cons.mp hx with rfl | hx
      · exact hab
      · exact htrans a b x hab (hb x hx)

theorem pySort_pairwise (le : α → α → Bool)
    (htrans : ∀ a b c, le a b = true → le b c = true → le a c = true)
    (htot : ∀ a b, le a b = true ∨ le b a = true) (l : List α) :
    List.Pairwise (fun x y => le x y = true) (pySort le l) := by
  suffices h : ∀ (l acc : List α), List.Pairwise (fun x y => le x y = true) acc →
      List.Pairwise (fun x y => le x y = true) (l.foldl (fun acc x => insertSorted le x acc) acc) by
    exact h l [] (by simp)
  intro l
  induction l with
  | nil => intro acc h; simpa using h
  | cons a l ih =>
    intro acc h
    exact ih (insertSorted le a acc) (insertSorted_pairwise le htrans htot a acc h)

/- Facts about the lexicographic comparison. -/

theorem lexLe_total : ∀ s t : Str, lexLe s t = true ∨ lexLe t s = true := by
  intro s
  induction s with
  | nil => intro t; left; rfl
  | cons a as ih =>
    intro t
    cases t with
    | nil => right; rfl
    | cons b bs =>
      rcases lt_trichotomy a b with h | h | h
      · left; simp [lexLe, h]
      · subst h
        rcases ih bs with h2 | h2
        · left; simp [lexLe, lt_irrefl, h2]
        · right; simp [lexLe, lt_irrefl, h2]
      · right; simp [lexLe, h]

theorem lexLe_trans : ∀ s t u : Str, lexLe s t = true → lexLe t u = true → lexLe s u = true := by
  intro s
  induction s with
  | nil => intro t u _ _; rfl
  | cons a as ih =>
    intro t u h1 h2
    cases t with
    | nil => exact absurd h1 (by simp [lexLe])
    | cons b bs =>
      cases u with
      | nil => exact absurd h2 (by simp [lexLe])
      | cons c cs =>
        simp only [lexLe] at h1 h2 ⊢
        rcases lt_trichotomy a b with hab | hab | hab
        · rcases lt_trichotomy b c with hbc | hbc | hbc
          · simp [lt_trans hab hbc]
          · subst hbc; simp [hab]
          · rw [if_neg (asymm hbc), if_pos hbc] at h2
            exact absurd h2 (by simp)
        · subst hab
          rw [if_neg (lt_irrefl a), if_neg (lt_irrefl a)] at h1
          rcases lt_trichotomy a c with hac | hac | hac
          · simp [hac]
          · subst hac
            rw [if_neg (lt_irrefl a), if_neg (lt_irrefl a)] at h2
            rw [if_neg (lt_irrefl a), if_neg (lt_irrefl a)]
            exact ih bs cs h1 h2
          · rw [if_neg (asymm hac), if_pos hac] at h2
            exact absurd h2 (by simp)
        · rw [if_neg (asymm hab), if_pos hab] at h1
          exact absurd h1 (by simp)

theorem lexLe_nil_right : ∀ s : Str, lexLe s [] = true → s = [] := by
  intro s h
  cases s with
  | nil => rfl
  | cons a as => simp [lexLe] at h

theorem contactLe_trans : ∀ a b c : Contact, contactLe a b = true → contactLe b c = true →
    contactLe a c = true := by
  intro a b c h1 h2
  exact lexLe_trans _ _ _ h1 h2

theorem contactLe_total : ∀ a b : Contact, contactLe a b = true ∨ contactLe b a = true := by
  intro a b
  exact lexLe_total _ _

/- Pagination arithmetic: `(N + L - 1) / L` is the ceiling of `N / L`. -/

theorem ceilPages_mul_ge (N L : Nat) (hL : 0 < L) : N ≤ ((N + L - 1) / L) * L := by
  rcases Nat.eq_zero_or_pos N with rfl | hN
  · simp
  · have hrw : N + L - 1 = (N - 1) + L := by omega
    rw [hrw, Nat.add_div_right _ hL]
    have hdm := Nat.div_add_mod (N - 1) L
    have hmod : (N - 1) % L < L := Nat.mod_lt _ hL
    have hx : ((N - 1) / L + 1) * L = (N - 1) / L * L + L := by ring
    have hcomm : (N - 1) / L * L = L * ((N - 1) / L) := Nat.mul_comm _ _
    rw [hx]
    omega

theorem ceilPages_mul_lt (N L : Nat) (hL : 0 < L) : ((N + L - 1) / L) * L < N + L := by
  rcases Nat.eq_zero_or_pos N with rfl | hN
  · have h0 : (0 + L - 1) / L = 0 := Nat.div_eq_of_lt (by omega)
    rw [h0]
    simpa using hL
  · have hrw : N + L - 1 = (N - 1) + L := by omega
    rw [hrw, Nat.add_div_right _ hL]
    have hdm := Nat.div_add_mod (N - 1) L
    have hx : ((N - 1) / L + 1) * L = (N - 1) / L * L + L := by ring
    have hcomm : (N - 1) / L * L = L * ((N - 1) / L) := Nat.mul_comm _ _
    rw [hx]
    omega

/-- Concatenating the pages `0, 1, ..., ceil(len/L) - 1`, each the slice
`[p*L : p*L + L]`, reproduces the whole list. -/
theorem pages_flatten (L : Nat) (hL : 0 < L) :
    ∀ (l : List α),
      ((List.range ((l.length + L - 1) / L)).map (fun i => (l.drop (i * L)).take L)).flatten = l := by
  suffices h : ∀ (n : Nat) (l : List α), l.length = n →
      ((List.range ((l.length + L - 1) / L)).map (fun i => (l.drop (i * L)).take L)).flatten = l by
    intro l
    exact h l.length l rfl
  intro n
  induction n using Nat.strong_induction_on with
  | _ n ih =>
    intro l hn
    rcases Nat.eq_zero_or_pos n with rfl | hn1
    · have hnil : l = [] := List.length_eq_zero.mp hn
      subst hnil
      have h0 : (L - 1) / L = 0 := Nat.div_eq_of_lt (by omega)
      simp [h0]
    · have hsplit : (l.length + L - 1) / L = ((l.drop L).length + L - 1) / L + 1 := by
        rw [List.length_drop, hn]
        rcases le_or_lt n L with hcase | hcase
        · have h1 : (n + L - 1) / L = 1 := by
            have hlo : 1 * L ≤ n + L - 1 := by omega
            have hhi : n + L - 1 < 2 * L := by omega
            exact Nat.div_eq_of_lt_le hlo (by omega)
          have h2 : (n - L + L - 1) / L = 0 := Nat.div_eq_of_lt (by omega)
          omega
        · have hrw1 : n + L - 1 = (n - L + L - 1) + L := by omega
          rw [hrw1, Nat.add_div_right _ hL]
      rw [hsplit, List.range_succ_eq_map, List.map_cons, List.map_map]
      have hdrop : ∀ i : Nat, (l.drop (Nat.succ i * L)).take L = ((l.drop L).drop (i * L)).take L := by
        intro i
        rw [List.drop_drop]
        have harg : Nat.succ i * L = L + L * i := by
          rw [Nat.succ_mul, Nat.mul_comm, Nat.add_comm]
        rw [harg, Nat.mul_comm L i]
      have hmapeq :
          (List.range (((l.drop L).length + L - 1) / L)).map
              ((fun i => (l.drop (i * L)).take L) ∘ Nat.succ) =
          (List.range (((l.drop L).length + L - 1) / L)).map
              (fun i => ((l.drop L).drop (i * L)).take L) := by
        apply List.map_congr_left
        intro i _
        exact hdrop i
      rw [hmapeq]
      have hrec := ih (l.drop L).length (by rw [List.length_drop]; omega) (l.drop L) rfl
      simp only [List.flatten_cons]
      rw [hrec]
      simp [List.take_append_drop L l]

/- Traversal lemmas: what the collection loops produce on well-formed
multistatus responses. -/

theorem contactOfElem_mk (term : Option Str) (hv : Str × Str) :
    contactOfElem term (mkContactElem hv) = .ok (reportContact? term hv) := by
  rcases hv with ⟨h, v⟩
  show (if strNonEmpty v then
          (if (optStrTruthy term && !matchContact (term.getD []) (contactOfPair (h, v))) = true
           then Except.ok none else Except.ok (some (contactOfPair (h, v))))
        else Except.ok none)
      = Except.ok (if strNonEmpty v then
          (if (optStrTruthy term && !matchContact (term.getD []) (contactOfPair (h, v))) = true
           then none else some (contactOfPair (h, v)))
        else none)
  by_cases hv2 : strNonEmpty v = true <;>
    by_cases hm : (optStrTruthy term && !matchContact (term.getD []) (contactOfPair (h, v))) = true <;>
    simp [hv2, hm]

theorem findall_multistatus_map (f : β → Xml) (hf : ∀ b, (f b).tag = tagResponse)
    (l : List β) :
    (Xml.elem tagMultistatus none (l.map f)).findall tagResponse = l.map f := by
  show (l.map f).filter (fun c => c.tag == tagResponse) = l.map f
  apply List.filter_eq_self.mpr
  intro a ha
  obtain ⟨b, _, rfl⟩ := List.mem_map.mp ha
  simp [hf b]

theorem collectContacts_mk (term : Option Str) :
    ∀ entries : List (Str × Str),
      collectContacts term (entries.map mkContactElem) = .ok (reportContacts entries term) := by
  intro entries
  induction entries with
  | nil => rfl
  | cons hv rest ih =>
    show collectContacts term (mkContactElem hv :: rest.map mkContactElem) = _
    simp only [collectContacts]
    rw [contactOfElem_mk, ih]
    rcases h : reportContact? term hv with _ | c <;>
      simp [reportContacts, List.filterMap_cons, h]

theorem list_contacts_attempt1_mk (entries : List (Str × Str)) (page limit : Nat)
    (term : Option Str) :
    list_contacts_attempt1 (mkReportResp entries) page limit term =
      .ok { contacts := ((sortedContacts entries term).drop ((page - 1) * limit)).take limit,
            total := (sortedContacts entries term).length } := by
  show (match collectContacts term
          ((Xml.elem tagMultistatus none (entries.map mkContactElem)).findall tagResponse) with
        | Except.error ex => Except.error ex
        | Except.ok cs =>
          let sorted := pySort contactLe cs
          Except.ok (ContactsPage.mk ((sorted.drop ((page - 1) * limit)).take limit)
            sorted.length)) = _
  rw [findall_multistatus_map mkContactElem (fun _ => rfl), collectContacts_mk]
  rfl

theorem list_contacts_raw_mk (entries : List (Str × Str)) (pr : HttpResponse)
    (page limit : Nat) (term : Option Str) :
    list_contacts_raw (mkReportResp entries) pr page limit term =
      (some { contacts := ((sortedContacts entries term).drop ((page - 1) * limit)).take limit,
              total := (sortedContacts entries term).length }, none) := by
  unfold list_contacts_raw
  rw [list_contacts_attempt1_mk]

theorem fileItemOfElem_mk (f : FileSpec) : fileItemOfElem (mkFileElem f) = .ok (itemOfSpec f) := by
  rcases f with ⟨h, rt, dn, cl⟩
  rcases rt with _ | b
  · rcases dn with _ | tx <;> rcases cl with _ | tx2 <;> rfl
  · cases b <;> rcases dn with _ | tx <;> rcases cl with _ | tx2 <;> rfl

theorem collectFileItems_mk :
    ∀ fs : List FileSpec, collectFileItems (fs.map mkFileElem) = .ok (fs.map itemOfSpec) := by
  intro fs
  induction fs with
  | nil => rfl
  | cons f rest ih =>
    show collectFileItems (mkFileElem f :: rest.map mkFileElem) = _
    simp only [collectFileItems]
    rw [fileItemOfElem_mk, ih]
    rfl

theorem list_files_try_mk (fs : List FileSpec) :
    list_files_try (mkFilesResp fs) = .ok (fs.map itemOfSpec) := by
  show collectFileItems ((Xml.elem tagMultistatus none (fs.map mkFileElem)).findall tagResponse) = _
  rw [findall_multistatus_map mkFileElem (fun _ => rfl), collectFileItems_mk]

theorem list_files_raw_mk (path : Str) (fs : List FileSpec) :
    list_files_raw path (mkFilesResp fs) = .ok (some (fs.map itemOfSpec), none) := by
  unfold list_files_raw
  rw [list_files_try_mk]
  rfl

theorem reportContacts_filter (t : Str) (ht : strNonEmpty t = true) :
    ∀ entries : List (Str × Str),
      reportContacts entries (some t) =
        (reportContacts entries none).filter (fun c => matchContact t c) := by
  intro entries
  induction entries with
  | nil => rfl
  | cons hv rest ih =>
    simp only [reportContacts] at ih
    cases hv2 : strNonEmpty hv.2 <;> cases hm : matchContact t (contactOfPair hv) <;>
      simp [reportContacts, List.filterMap_cons, reportContact?, optStrTruthy, hv2, hm, ht, ih]

/- Equations for `pyReplace` (the fuel in `pyReplaceGo` is irrelevant once it
covers the input length). -/

theorem pyReplaceGo_fuel (pat rep : Str) :
    ∀ (n : Nat) (s : Str) (f1 f2 : Nat), s.length ≤ n → s.length ≤ f1 → s.length ≤ f2 →
      pyReplaceGo pat rep f1 s = pyReplaceGo pat rep f2 s := by
  intro n
  induction n with
  | zero =>
    intro s f1 f2 h0 _ _
    have hs : s = [] := List.length_eq_zero.mp (Nat.le_zero.mp h0)
    subst hs
    cases f1 <;> cases f2 <;> rfl
  | succ n ih =>
    intro s f1 f2 h0 h1 h2
    cases s with
    | nil => cases f1 <;> cases f2 <;> rfl
    | cons c rest =>
      cases f1 with
      | zero => simp at h1
      | succ f1 =>
        cases f2 with
        | zero => simp at h2
        | succ f2 =>
          show (if pat.isPrefixOf (c :: rest) && !pat.isEmpty then
                  rep ++ pyReplaceGo pat rep f1 ((c :: rest).drop pat.length)
                else c :: pyReplaceGo pat rep f1 rest) =
               (if pat.isPrefixOf (c :: rest) && !pat.isEmpty then
                  rep ++ pyReplaceGo pat rep f2 ((c :: rest).drop pat.length)
                else c :: pyReplaceGo pat rep f2 rest)
          by_cases hp : (pat.isPrefixOf (c :: rest) && !pat.isEmpty) = true
          · rw [if_pos hp, if_pos hp]
            have hne : pat ≠ [] := by
              intro he
              subst he
              simp at hp
            have hplen : 1 ≤ pat.length := List.length_pos.mpr hne
            have hdl : ((c :: rest).drop pat.length).length ≤ n := by
              rw [List.length_drop]
              simp only [List.length_cons] at h0 ⊢
              omega
            congr 1
            exact ih _ f1 f2 hdl (by rw [List.length_drop]; simp only [List.length_cons] at h1 ⊢; omega)
              (by rw [List.length_drop]; simp only [List.length_cons] at h2 ⊢; omega)
          · rw [if_neg hp, if_neg hp]
            have hrl : rest.length ≤ n := by
              simp only [List.length_cons] at h0
              omega
            congr 1
            exact ih rest f1 f2 hrl (by simp only [List.length_cons] at h1; omega)
              (by simp only [List.length_cons] at h2; omega)

theorem pyReplace_cons (pat rep : Str) (c : Char) (rest : Str) :
    pyReplace (c :: rest) pat rep =
      if pat.isPrefixOf (c :: rest) && !pat.isEmpty then
        rep ++ pyReplace ((c :: rest).drop pat.length) pat rep
      else c :: pyReplace rest pat rep := by
  show (if pat.isPrefixOf (c :: rest) && !pat.isEmpty then
          rep ++ pyReplaceGo pat rep rest.length ((c :: rest).drop pat.length)
        else c :: pyReplaceGo pat rep rest.length rest) = _
  by_cases hp : (pat.isPrefixOf (c :: rest) && !pat.isEmpty) = true
  · rw [if_pos hp, if_pos hp]
    have hne : pat ≠ [] := by
      intro he
      subst he
      simp at hp
    have hplen : 1 ≤ pat.length := List.length_pos.mpr hne
    congr 1
    exact pyReplaceGo_fuel pat rep ((c :: rest).drop pat.length).length _ _ _ le_rfl
      (by rw [List.length_drop]; simp only [List.length_cons]; omega) le_rfl
  · rw [if_neg hp, if_neg hp]
    rfl

theorem isPrefixOf_append_self : ∀ l t : Str, l.isPrefixOf (l ++ t) = true := by
  intro l
  induction l with
  | nil => intro t; simp [List.isPrefixOf]
  | cons a as ih =>
    intro t
    show ((a == a) && as.isPrefixOf (as ++ t)) = true
    simp [ih t]

theorem pyReplace_head_notin (p0 : Char) (pt rep : Str) :
    ∀ s : Str, p0 ∉ s → pyReplace s (p0 :: pt) rep = s := by
  intro s
  induction s with
  | nil => intro _; rfl
  | cons c rest ih =>
    intro h
    rw [pyReplace_cons]
    have hc : (p0 == c) = false := by
      have : p0 ≠ c := by
        intro he
        exact h (he ▸ List.mem_cons_self c rest)
      simpa using this
    have hpre : (p0 :: pt).isPrefixOf (c :: rest) = false := by
      show ((p0 == c) && pt.isPrefixOf rest) = false
      simp [hc]
    rw [hpre]
    simp only [Bool.false_and, if_false, Bool.false_eq_true]
    rw [ih (fun hm => h (List.mem_cons_of_mem c hm))]

theorem pyReplace_fold (p0 : Char) (pt rep : Str) :
    ∀ a b : Str, p0 ∉ a →
      pyReplace (a ++ (p0 :: pt) ++ b) (p0 :: pt) rep = a ++ rep ++ pyReplace b (p0 :: pt) rep := by
  intro a
  induction a with
  | nil =>
    intro b _
    simp only [List.nil_append]
    rw [show (p0 :: pt) ++ b = p0 :: (pt ++ b) from rfl, pyReplace_cons]
    have hpre : (p0 :: pt).isPrefixOf (p0 :: (pt ++ b)) = true := isPrefixOf_append_self (p0 :: pt) b
    rw [hpre]
    simp only [Bool.true_and, List.isEmpty_cons, Bool.not_false, if_true]
    have hdrop : (p0 :: (pt ++ b)).drop (p0 :: pt).length = b := List.drop_left (p0 :: pt) b
    rw [hdrop]
  | cons c a ih =>
    intro b h
    have hc : (p0 == c) = false := by
      have : p0 ≠ c := by
        intro he
        exact h (he ▸ List.mem_cons_self c a)
      simpa using this
    show pyReplace (c :: (a ++ (p0 :: pt) ++ b)) (p0 :: pt) rep = _
    rw [pyReplace_cons]
    have hpre : (p0 :: pt).isPrefixOf (c :: (a ++ (p0 :: pt) ++ b)) = false := by
      show ((p0 == c) && pt.isPrefixOf (a ++ (p0 :: pt) ++ b)) = false
      simp [hc]
    rw [hpre]
    simp only [Bool.false_and, if_false, Bool.false_eq_true]
    rw [ih b (fun hm => h (List.mem_cons_of_mem c hm))]
    simp

theorem pyReplace_single_tail (p0 p1 : Char) (pt rep : Str) :
    ∀ u : Str, p0 ∉ u → pyReplace (u ++ [p0]) (p0 :: p1 :: pt) rep = u ++ [p0] := by
  intro u
  induction u with
  | nil =>
    intro _
    simp only [List.nil_append]
    rw [pyReplace_cons]
    have hpre : (p0 :: p1 :: pt).isPrefixOf [p0] = false := by
      show ((p0 == p0) && false) = false
      simp
    rw [hpre]
    rfl
  | cons c u ih =>
    intro h
    have hc : (p0 == c) = false := by
      have : p0 ≠ c := by
        intro he
        exact h (he ▸ List.mem_cons_self c u)
      simpa using this
    show pyReplace (c :: (u ++ [p0])) (p0 :: p1 :: pt) rep = _
    rw [pyReplace_cons]
    have hpre : (p0 :: p1 :: pt).isPrefixOf (c :: (u ++ [p0])) = false := by
      show ((p0 == c) && (p1 :: pt).isPrefixOf (u ++ [p0])) = false
      simp [hc]
    rw [hpre]
    simp only [Bool.false_and, if_false, Bool.false_eq_true]
    rw [ih (fun hm => h (List.mem_cons_of_mem c hm))]
    simp

/- Equations for `pySplitOnce`. -/

theorem pySplitOnce_not_mem (sep : Char) :
    ∀ s : Str, sep ∉ s → pySplitOnce sep s = (s, none) := by
  intro s
  induction s with
  | nil => intro _; rfl
  | cons c rest ih =>
    intro h
    have hc : c ≠ sep := by
      intro he
      exact h (he ▸ List.mem_cons_self c rest)
    show (if c = sep then ([], some rest)
          else match pySplitOnce sep rest with | (a, b) => (c :: a, b)) = _
    rw [if_neg hc, ih (fun hm => h (List.mem_cons_of_mem c hm))]

theorem pySplitOnce_append (sep : Char) :
    ∀ key val : Str, sep ∉ key → pySplitOnce sep (key ++ sep :: val) = (key, some val) := by
  intro key
  induction key with
  | nil =>
    intro val _
    show (if sep = sep then (([] : Str), some val) else _) = _
    rw [if_pos rfl]
  | cons c key ih =>
    intro val h
    have hc : c ≠ sep := by
      intro he
      exact h (he ▸ List.mem_cons_self c key)
    show (if c = sep then ([], some (key ++ sep :: val))
          else match pySplitOnce sep (key ++ sep :: val) with | (a, b) => (c :: a, b)) = _
    rw [if_neg hc, ih val (fun hm => h (List.mem_cons_of_mem c hm))]

/- `strContains` finds an explicitly placed substring. -/

theorem strContains_nil_left : ∀ h : Str, strContains [] h = true := by
  intro h
  cases h <;> rfl

theorem strContains_append (needle : Str) :
    ∀ a b : Str, strContains needle (a ++ needle ++ b) = true := by
  intro a
  induction a with
  | nil =>
    intro b
    cases needle with
    | nil => exact strContains_nil_left b
    | cons n ns =>
      show ((n :: ns).isPrefixOf (n :: (ns ++ b)) || strContains (n :: ns) (ns ++ b)) = true
      rw [show n :: (ns ++ b) = (n :: ns) ++ b from rfl, isPrefixOf_append_self]
      rfl
  | cons c a ih =>
    intro b
    show (needle.isPrefixOf (c :: (a ++ needle ++ b)) || strContains needle (a ++ needle ++ b)) = true
    rw [ih b]
    simp

/-- C1: for every contact set and search term, with filtered size N and page
limit L > 0, `list_contacts_raw` reports `total = N` (the pre-slice filtered
count, preserved by the sort), page p holds the slice
`[(p-1)*L : (p-1)*L + L]` of the sorted filtered set, the `total_pages`
computed by `list_contacts` equals `ceil(N/L)` (characterized by
`N ≤ tp*L < N + L`), and concatenating pages `1..total_pages` reproduces the
full sorted filtered set with no duplicates or omissions. -/
theorem claim_C1_pagination :
    ∀ (entries : List (Str × Str)) (pr : HttpResponse) (page limit : Nat) (term : Option Str),
      0 < limit → 1 ≤ page →
      (list_contacts_raw (mkReportResp entries) pr page limit term =
        (some { contacts := ((sortedContacts entries term).drop ((page - 1) * limit)).take limit,
                total := (sortedContacts entries term).length }, none))
      ∧ (sortedContacts entries term).length = (reportContacts entries term).length
      ∧ list_contacts_total_pages (sortedContacts entries term).length limit =
          ((sortedContacts entries term).length + limit - 1) / limit
      ∧ (sortedContacts entries term).length ≤
          list_contacts_total_pages (sortedContacts entries term).length limit * limit
      ∧ list_contacts_total_pages (sortedContacts entries term).length limit * limit <
          (sortedContacts entries term).length + limit
      ∧ ((List.range (list_contacts_total_pages (sortedContacts entries term).length limit)).map
            (fun i => ((sortedContacts entries term).drop (i * limit)).take limit)).flatten =
          sortedContacts entries term := by
  intro entries pr page limit term hL hp
  have htp : list_contacts_total_pages (sortedContacts entries term).length limit =
      ((sortedContacts entries term).length + limit - 1) / limit := by
    unfold list_contacts_total_pages
    rw [if_pos (by omega)]
  refine ⟨list_contacts_raw_mk entries pr page limit term, ?_, htp, ?_, ?_, ?_⟩
  · exact (pySort_perm contactLe (reportContacts entries term)).length_eq
  · rw [htp]
    exact ceilPages_mul_ge _ _ hL
  · rw [htp]
    exact ceilPages_mul_lt _ _ hL
  · rw [htp]
    exact pages_flatten limit hL (sortedContacts entries term)

/-- C1 witness: the pagination facts at a concrete input (empty contact set,
page 1, limit 30, no search term). -/
theorem claim_C1_pagination_witness :
    0 < 30 ∧ 1 ≤ 1 ∧
    ((list_contacts_raw (mkReportResp []) (mkReportResp []) 1 30 none =
        (some { contacts := ((sortedContacts [] none).drop ((1 - 1) * 30)).take 30,
                total := (sortedContacts [] none).length }, none))
      ∧ (sortedContacts [] none).length = (reportContacts [] none).length
      ∧ list_contacts_total_pages (sortedContacts [] none).length 30 =
          ((sortedContacts [] none).length + 30 - 1) / 30
      ∧ (sortedContacts [] none).length ≤
          list_contacts_total_pages (sortedContacts [] none).length 30 * 30
      ∧ list_contacts_total_pages (sortedContacts [] none).length 30 * 30 <
          (sortedContacts [] none).length + 30
      ∧ ((List.range (list_contacts_total_pages (sortedContacts [] none).length 30)).map
            (fun i => ((sortedContacts [] none).drop (i * 30)).take 30)).flatten =
          sortedContacts [] none) :=
  ⟨by decide, by decide,
    claim_C1_pagination [] (mkReportResp []) 1 30 none (by decide) (by decide)⟩

/-- C2 counterexample: a one-contact address book searched with a term that
matches nothing gives `total = 0` but `list_contacts` prints `Page 1/0` —
its `total_pages` is 0, not 1 as the claim states (`(0 + 30 - 1) // 30 = 0`;
the guard on line 1022 is `if limit`, not `if total`). -/
theorem claim_C2_counterexample :
    list_contacts ("friends".data)
        (mkReportResp [(("x.vcf".data), ("FN:Bob\n".data))]) (mkReportResp [])
        1 30 (some ("zzz".data)) =
      .ok ("Contacts in friends (Page 1/0, 0 total):\n".data)
    ∧ list_contacts_total_pages 0 30 = 0
    ∧ (0 : Nat) ≠ 1 :=
  ⟨by decide, by decide, by decide⟩

/-- C2 (amended): when the search term matches neither fn, email nor tel of
any contact, `list_contacts_raw` yields `total = 0` and an empty page, and
`list_contacts` computes `total_pages = 0` (not 1), printing a header with
`Page page/0, 0 total` and no contact lines. -/
theorem claim_C2_empty_search :
    ∀ (book : Str) (entries : List (Str × Str)) (pr : HttpResponse) (page limit : Nat) (t : Str),
      strNonEmpty t = true →
      (∀ hv ∈ entries, strNonEmpty hv.2 = true → matchContact t (contactOfPair hv) = false) →
      0 < limit → 1 ≤ page →
      list_contacts_raw (mkReportResp entries) pr page limit (some t) =
        (some { contacts := [], total := 0 }, none)
      ∧ list_contacts_total_pages 0 limit = 0
      ∧ list_contacts book (mkReportResp entries) pr page limit (some t) =
          .ok (sCtHdrA ++ book ++ sCtHdrB ++ natStr page ++ sSlash ++ natStr 0 ++ sCtHdrC ++
            natStr 0 ++ sCtHdrD) := by
  intro book entries pr page limit t ht hno hL hp
  have hrc : reportContacts entries (some t) = [] := by
    apply List.filterMap_eq_nil_iff.mpr
    intro hv hmem
    unfold reportContact?
    cases hv2 : strNonEmpty hv.2 with
    | false => simp [hv2]
    | true =>
      simp only [hv2, if_true]
      have hm := hno hv hmem hv2
      simp [optStrTruthy, ht, hm]
  have hsc : sortedContacts entries (some t) = [] := by
    unfold sortedContacts
    rw [hrc]
    rfl
  have htp : list_contacts_total_pages 0 limit = 0 := by
    unfold list_contacts_total_pages
    rw [if_pos (by omega)]
    exact Nat.div_eq_of_lt (by omega)
  have hraw : list_contacts_raw (mkReportResp entries) pr page limit (some t) =
      (some { contacts := [], total := 0 }, none) := by
    rw [list_contacts_raw_mk, hsc]
    simp
  refine ⟨hraw, htp, ?_⟩
  unfold list_contacts
  rw [hraw]
  show Except.ok (sCtHdrA ++ book ++ sCtHdrB ++ natStr page ++ sSlash ++
    natStr (list_contacts_total_pages 0 limit) ++ sCtHdrC ++ natStr 0 ++ sCtHdrD ++
    (([] : List Contact).map (fun c => contactLine (some t) c ++ sNL)).flatten) = _
  rw [htp]
  simp

/-- C2 witness: the amended statement at a concrete input. -/
theorem claim_C2_empty_search_witness :
    (strNonEmpty ("zz".data) = true ∧ 0 < 10 ∧ 1 ≤ 1) ∧
    (list_contacts_raw (mkReportResp [(("a.vcf".data), ("FN:Al\n".data))]) (mkReportResp [])
        1 10 (some ("zz".data)) = (some { contacts := [], total := 0 }, none)
      ∧ list_contacts_total_pages 0 10 = 0
      ∧ list_contacts ("b".data) (mkReportResp [(("a.vcf".data), ("FN:Al\n".data))])
          (mkReportResp []) 1 10 (some ("zz".data)) =
          .ok (sCtHdrA ++ ("b".data) ++ sCtHdrB ++ natStr 1 ++ sSlash ++ natStr 0 ++ sCtHdrC ++
            natStr 0 ++ sCtHdrD)) :=
  ⟨⟨by decide, by decide, by decide⟩,
    claim_C2_empty_search ("b".data) [(("a.vcf".data), ("FN:Al\n".data))] (mkReportResp [])
      1 10 ("zz".data) (by decide) (by decide) (by decide) (by decide)⟩

/-- C3 counterexample: on an HTTP 404 response, `delete_note` and `get_note`
call `raise_for_status()` with no 404 check, so the HTTPError propagates to
the caller instead of a "not found" result. -/
theorem claim_C3_counterexample :
    delete_note ("5".data) { status := 404, text := [], xml := .error [], json := .error [] } =
      .error (.httpError 404)
    ∧ get_note { status := 404, text := [], xml := .error [], json := .error [] } =
      .error (.httpError 404) :=
  ⟨rfl, rfl⟩

/-- C3 (amended): an HTTP 404 on `read_file` and `delete_file` yields a
descriptive result containing "not found" and no exception — in particular
`read_file("missing.txt")` does — but the Notes operations `get_note` and
`delete_note` have no 404 check and propagate the HTTPError. -/
theorem claim_C3_not_found :
    ∀ (path nid tx : Str) (x : Except Str Xml) (j : Except Str Json),
      (∃ msg, read_file path { status := 404, text := tx, xml := x, json := j } = .ok msg ∧
        strContains sNotFound msg = true)
      ∧ (∃ msg, delete_file path { status := 404, text := tx, xml := x, json := j } = .ok msg ∧
        strContains sNotFound msg = true)
      ∧ get_note { status := 404, text := tx, xml := x, json := j } = .error (.httpError 404)
      ∧ delete_note nid { status := 404, text := tx, xml := x, json := j } =
          .error (.httpError 404) := by
  intro path nid tx x j
  have hsplit : sErrFileA ++ lstripSlash path ++ sErrFileB =
      (sErrFileA ++ lstripSlash path ++ ("' ".data)) ++ sNotFound ++ (".".data) := by
    have hB : sErrFileB = ("' ".data) ++ sNotFound ++ (".".data) := by decide
    rw [hB]
    simp [List.append_assoc]
  refine ⟨⟨sErrFileA ++ lstripSlash path ++ sErrFileB, rfl, ?_⟩,
    ⟨sErrFileA ++ lstripSlash path ++ sErrFileB, rfl, ?_⟩, rfl, rfl⟩ <;>
    · rw [hsplit]
      exact strContains_append sNotFound _ _

/-- C4 counterexample: `list_notes` hands `response.json()` straight to the
caller with no `try`, so a malformed JSON body raises instead of becoming a
descriptive error string. -/
theorem claim_C4_counterexample :
    list_notes { status := 200, text := [], xml := .error ("syntax error".data),
                 json := .error ("Expecting value".data) } =
      .error (.jsonParseError ("Expecting value".data)) :=
  rfl

/-- C4 (amended): malformed XML in the DAV listing operations (`list_files`,
`list_files_raw`) is caught locally and turned into the descriptive string
"Error parsing WebDAV response: ..."; but the REST callers do not guard
`response.json()` — `list_notes` propagates a JSON parse failure as an
exception. -/
theorem claim_C4_parse_errors :
    ∀ (path tx emsg : Str) (j : Except Str Json),
      list_files path { status := 200, text := tx, xml := .error emsg, json := j } =
        .ok (sXmlErrPrefix ++ emsg)
      ∧ list_files_raw path { status := 200, text := tx, xml := .error emsg, json := j } =
        .ok (none, some (sXmlErrPrefix ++ emsg))
      ∧ (∀ (tx2 jmsg : Str) (x : Except Str Xml),
          list_notes { status := 200, text := tx2, xml := x, json := .error jmsg } =
            .error (.jsonParseError jmsg)) := by
  intro path tx emsg j
  exact ⟨rfl, rfl, fun tx2 jmsg x => rfl⟩

theorem strIntVal_nonneg_of_digits : ∀ s : Str, s.all Char.isDigit = true → 0 ≤ strIntVal s := by
  intro s hdig
  cases s with
  | nil => decide
  | cons c cs =>
    have hc : c ≠ '-' := by
      intro he
      subst he
      simp [List.all_cons] at hdig
    have hval : strIntVal (c :: cs) = (digitsVal (c :: cs) : Int) := by
      unfold strIntVal
      split
      · next rest heq =>
        cases heq
        exact absurd rfl hc
      · rfl
    rw [hval]
    exact Int.natCast_nonneg _

/-- C5 counterexample: the size field is the verbatim `getcontentlength`
text; a response carrying "-5" produces a record whose size denotes a
negative integer, refuting "every returned record has size >= 0". -/
theorem claim_C5_counterexample :
    list_files_raw []
        (mkFilesResp [{ href := ("/f".data), rtype := none, displayname := none,
                        contentlength := some (some ("-5".data)) }]) =
      .ok (some [{ name := some ("f".data), href := ("/f".data), is_directory := false,
                   size := some ("-5".data) }], none)
    ∧ strIntVal ("-5".data) < 0 :=
  ⟨by decide, by decide⟩

/-- C5 (amended): on a well-formed multistatus response `list_files_raw`
returns exactly one record per response element, whose `is_directory` is
true iff the element's resourcetype carries a collection child, whose size
is the verbatim `getcontentlength` text defaulting to "0" when the element
is absent, and whose size is guaranteed non-negative only when that text is
a decimal-digit numeral (the code performs no validation). -/
theorem claim_C5_file_records :
    ∀ (path : Str) (fs : List FileSpec),
      list_files_raw path (mkFilesResp fs) = .ok (some (fs.map itemOfSpec), none)
      ∧ ∀ f : FileSpec,
          ((itemOfSpec f).is_directory = true ↔ f.rtype = some true)
          ∧ ((itemOfSpec f).size = match f.contentlength with
              | some tx => tx
              | none => some sZero)
          ∧ (∀ s : Str, (itemOfSpec f).size = some s → s.all Char.isDigit = true →
              0 ≤ strIntVal s) := by
  intro path fs
  refine ⟨list_files_raw_mk path fs, ?_⟩
  intro f
  refine ⟨?_, rfl, ?_⟩
  · rcases f with ⟨h, rt, dn, cl⟩
    rcases rt with _ | b
    · simp [itemOfSpec]
    · cases b <;> simp [itemOfSpec]
  · intro s hs hdig
    exact strIntVal_nonneg_of_digits s hdig

/-- C5 witness: the amended statement at a concrete input with a proper
digit-valued content length. -/
theorem claim_C5_file_records_witness :
    (list_files_raw ("d".data)
        (mkFilesResp [{ href := ("/d/a.txt".data), rtype := some false,
                        displayname := some (some ("a.txt".data)),
                        contentlength := some (some ("42".data)) }]) =
      .ok (some [itemOfSpec { href := ("/d/a.txt".data), rtype := some false,
                              displayname := some (some ("a.txt".data)),
                              contentlength := some (some ("42".data)) }], none))
    ∧ (itemOfSpec { href := ("/d/a.txt".data), rtype := some false,
                    displayname := some (some ("a.txt".data)),
                    contentlength := some (some ("42".data)) }).size = some ("42".data)
    ∧ (("42".data).all Char.isDigit = true)
    ∧ 0 ≤ strIntVal ("42".data) :=
  by
    have h := claim_C5_file_records ("d".data)
      [{ href := ("/d/a.txt".data), rtype := some false,
         displayname := some (some ("a.txt".data)),
         contentlength := some (some ("42".data)) }]
    refine ⟨h.1, by decide, by decide, ?_⟩
    exact (h.2 { href := ("/d/a.txt".data), rtype := some false,
                 displayname := some (some ("a.txt".data)),
                 contentlength := some (some ("42".data)) }).2.2 ("42".data)
      (by decide) (by decide)

/-- C6 counterexample: a continuation line starting with a tab is NOT
unfolded — `_parse_vcard "FN:A\n\tB"` leaves `fn = "A"` (the tab line is
dropped for lack of a colon) instead of merging to "AB"; only the
`"\r\n "` / `"\n "` space forms are unfolded. -/
theorem claim_C6_counterexample :
    _parse_vcard ("FN:A\n\tB".data) = { fn := some ("A".data) }
    ∧ ("A".data : Str) ≠ ("AB".data) :=
  ⟨by decide, by decide⟩

/-- C6 (amended): VCard decoding is deterministic (decoding the same blob
twice yields identical records), and a folded line whose continuation starts
with a single leading SPACE is unfolded by deleting the line break and that
one space, merging it into one logical value; tab continuations are not
unfolded. -/
theorem claim_C6_unfolding :
    (∀ v : Str, _parse_vcard v = _parse_vcard v)
    ∧ ∀ (k v1 v2 : Str),
        '\r' ∉ k → '\n' ∉ k → '\r' ∉ v1 → '\n' ∉ v1 → '\r' ∉ v2 → '\n' ∉ v2 →
        _parse_vcard (k ++ ':' :: (v1 ++ '\n' :: ' ' :: (v2 ++ ['\n']))) =
          _parse_vcard (k ++ ':' :: (v1 ++ v2 ++ ['\n'])) := by
  refine ⟨fun v => rfl, ?_⟩
  intro k v1 v2 hkr hkn h1r h1n h2r h2n
  have hr1 : '\r' ∉ (k ++ ':' :: (v1 ++ '\n' :: ' ' :: (v2 ++ ['\n']))) := by
    simp only [List.mem_append, List.mem_cons, List.mem_singleton, List.not_mem_nil]
    push_neg
    exact ⟨hkr, by decide, h1r, by decide, by decide, h2r, by decide⟩
  have hr2 : '\r' ∉ (k ++ ':' :: (v1 ++ v2 ++ ['\n'])) := by
    simp only [List.mem_append, List.mem_cons, List.mem_singleton, List.not_mem_nil]
    push_neg
    exact ⟨hkr, by decide, ⟨h1r, h2r⟩, by decide⟩
  have hA : '\n' ∉ (k ++ ':' :: v1) := by
    simp only [List.mem_append, List.mem_cons]
    push_neg
    exact ⟨hkn, by decide, h1n⟩
  have hU : '\n' ∉ (k ++ ':' :: (v1 ++ v2)) := by
    simp only [List.mem_append, List.mem_cons]
    push_neg
    exact ⟨hkn, by decide, h1n, h2n⟩
  have hstr :
      pyReplace (pyReplace (k ++ ':' :: (v1 ++ '\n' :: ' ' :: (v2 ++ ['\n']))) sCRNLSpace [])
        sNLSpace [] =
      pyReplace (pyReplace (k ++ ':' :: (v1 ++ v2 ++ ['\n'])) sCRNLSpace []) sNLSpace [] := by
    rw [show sCRNLSpace = '\r' :: ('\n' :: (' ' :: [])) from rfl,
      show sNLSpace = '\n' :: (' ' :: []) from rfl]
    rw [pyReplace_head_notin '\r' _ _ _ hr1, pyReplace_head_notin '\r' _ _ _ hr2]
    have hshape1 : k ++ ':' :: (v1 ++ '\n' :: ' ' :: (v2 ++ ['\n'])) =
        (k ++ ':' :: v1) ++ ('\n' :: (' ' :: [])) ++ (v2 ++ ['\n']) := by
      simp
    have hshape2 : k ++ ':' :: (v1 ++ v2 ++ ['\n']) = (k ++ ':' :: (v1 ++ v2)) ++ ['\n'] := by
      simp
    rw [hshape1, pyReplace_fold '\n' (' ' :: []) [] _ _ hA,
      pyReplace_single_tail '\n' ' ' [] [] v2 h2n,
      hshape2, pyReplace_single_tail '\n' ' ' [] [] _ hU]
    simp
  unfold _parse_vcard
  rw [hstr]

/-- C6 witness: the space-continuation unfolding at a concrete folded ADR
line. -/
theorem claim_C6_unfolding_witness :
    (('\r' ∉ ("ADR".data : Str)) ∧ ('\n' ∉ ("ADR".data : Str)) ∧
     ('\r' ∉ ("Street".data : Str)) ∧ ('\n' ∉ ("Street".data : Str)) ∧
     ('\r' ∉ ("City".data : Str)) ∧ ('\n' ∉ ("City".data : Str)))
    ∧ _parse_vcard (("ADR".data) ++ ':' :: (("Street".data) ++ '\n' :: ' ' ::
        (("City".data) ++ ['\n']))) =
      _parse_vcard (("ADR".data) ++ ':' :: (("Street".data) ++ ("City".data) ++ ['\n'])) :=
  ⟨⟨by decide, by decide, by decide, by decide, by decide, by decide⟩,
    claim_C6_unfolding.2 ("ADR".data) ("Street".data) ("City".data)
      (by decide) (by decide) (by decide) (by decide) (by decide) (by decide)⟩

theorem vcardLine_keyval (d : Contact) (key val : Str) (h : ':' ∉ key) :
    vcardLine d (key ++ ':' :: val) =
      (let key_name := pyUpper ((pySplitChar ';' key).headD [])
       let v := pyStrip val
       if key_name = sFN then { d with fn := some v }
       else if key_name = sEMAIL then { d with email := some v }
       else if key_name = sTEL then { d with tel := some v }
       else if key_name = sORG then { d with org := some v }
       else if key_name = sNOTE then { d with note := some v }
       else if key_name = sADR then
         { d with adr := some (List.intercalate sCommaSpace
             ((pySplitChar ';' v).filter strNonEmpty)) }
       else d) := by
  unfold vcardLine
  rw [pySplitOnce_append ':' key val h]

/-- C7: `_parse_vcard` processes the unfolded lines left to right; each line
splits on the FIRST ':' (a line without one is skipped unchanged); the
property name is the part before the first ';' of the key, uppercased;
exactly FN, EMAIL, TEL, ORG, NOTE and ADR are recognized (any other name
leaves the record unchanged, without error); an ADR value is split on ';'
and its non-empty components joined with ", "; and a later occurrence of a
recognized property overwrites the earlier one (last occurrence wins, shown
for FN). -/
theorem claim_C7_vcard_recognition :
    (∀ v : Str, _parse_vcard v =
      (splitlines (pyReplace (pyReplace v sCRNLSpace []) sNLSpace [])).foldl vcardLine {})
    ∧ (∀ (d : Contact) (line : Str), ':' ∉ line → vcardLine d line = d)
    ∧ (∀ (d : Contact) (key val : Str), ':' ∉ key →
        pyUpper ((pySplitChar ';' key).headD []) ∉ ([sFN, sEMAIL, sTEL, sORG, sNOTE, sADR] : List Str) →
        vcardLine d (key ++ ':' :: val) = d)
    ∧ (∀ (d : Contact) (key val : Str), ':' ∉ key →
        pyUpper ((pySplitChar ';' key).headD []) = sFN →
        vcardLine d (key ++ ':' :: val) = { d with fn := some (pyStrip val) })
    ∧ (∀ (d : Contact) (key val : Str), ':' ∉ key →
        pyUpper ((pySplitChar ';' key).headD []) = sEMAIL →
        vcardLine d (key ++ ':' :: val) = { d with email := some (pyStrip val) })
    ∧ (∀ (d : Contact) (key val : Str), ':' ∉ key →
        pyUpper ((pySplitChar ';' key).headD []) = sTEL →
        vcardLine d (key ++ ':' :: val) = { d with tel := some (pyStrip val) })
    ∧ (∀ (d : Contact) (key val : Str), ':' ∉ key →
        pyUpper ((pySplitChar ';' key).headD []) = sORG →
        vcardLine d (key ++ ':' :: val) = { d with org := some (pyStrip val) })
    ∧ (∀ (d : Contact) (key val : Str), ':' ∉ key →
        pyUpper ((pySplitChar ';' key).headD []) = sNOTE →
        vcardLine d (key ++ ':' :: val) = { d with note := some (pyStrip val) })
    ∧ (∀ (d : Contact) (key val : Str), ':' ∉ key →
        pyUpper ((pySplitChar ';' key).headD []) = sADR →
        vcardLine d (key ++ ':' :: val) = { d with adr := some (List.intercalate sCommaSpace
          ((pySplitChar ';' (pyStrip val)).filter strNonEmpty)) })
    ∧ (∀ (d : Contact) (ls : List Str) (key val : Str), ':' ∉ key →
        pyUpper ((pySplitChar ';' key).headD []) = sFN →
        ((ls ++ [key ++ ':' :: val]).foldl vcardLine d).fn = some (pyStrip val)) := by
  have hskip : ∀ (d : Contact) (line : Str), ':' ∉ line → vcardLine d line = d := by
    intro d line h
    unfold vcardLine
    rw [pySplitOnce_not_mem ':' line h]
  have hFN : ∀ (d : Contact) (key val : Str), ':' ∉ key →
      pyUpper ((pySplitChar ';' key).headD []) = sFN →
      vcardLine d (key ++ ':' :: val) = { d with fn := some (pyStrip val) } := by
    intro d key val h hname
    rw [vcardLine_keyval d key val h, hname]
    simp
  refine ⟨fun v => rfl, hskip, ?_, hFN, ?_, ?_, ?_, ?_, ?_, ?_⟩
  · intro d key val h hname
    simp only [List.mem_cons, List.not_mem_nil, or_false] at hname
    push_neg at hname
    obtain ⟨h1, h2, h3, h4, h5, h6⟩ := hname
    rw [vcardLine_keyval d key val h]
    simp only [if_neg h1, if_neg h2, if_neg h3, if_neg h4, if_neg h5, if_neg h6]
  · intro d key val h hname
    rw [vcardLine_keyval d key val h, hname]
    simp [show sEMAIL ≠ sFN from by decide]
  · intro d key val h hname
    rw [vcardLine_keyval d key val h, hname]
    simp [show sTEL ≠ sFN from by decide, show sTEL ≠ sEMAIL from by decide]
  · intro d key val h hname
    rw [vcardLine_keyval d key val h, hname]
    simp [show sORG ≠ sFN from by decide, show sORG ≠ sEMAIL from by decide,
      show sORG ≠ sTEL from by decide]
  · intro d key val h hname
    rw [vcardLine_keyval d key val h, hname]
    simp [show sNOTE ≠ sFN from by decide, show sNOTE ≠ sEMAIL from by decide,
      show sNOTE ≠ sTEL from by decide, show sNOTE ≠ sORG from by decide]
  · intro d key val h hname
    rw [vcardLine_keyval d key val h, hname]
    simp [show sADR ≠ sFN from by decide, show sADR ≠ sEMAIL from by decide,
      show sADR ≠ sTEL from by decide, show sADR ≠ sORG from by decide,
      show sADR ≠ sNOTE from by decide]
  · intro d ls key val h hname
    rw [List.foldl_append]
    simp only [List.foldl_cons, List.foldl_nil]
    rw [hFN _ key val h hname]

/-- C7 witness: the FN recognition rule (split on first ':', parameters
after ';' ignored, name uppercased, value stripped) at a concrete line. -/
theorem claim_C7_vcard_recognition_witness :
    (':' ∉ ("fn;TYPE=work".data : Str) ∧
      pyUpper ((pySplitChar ';' ("fn;TYPE=work".data)).headD []) = sFN)
    ∧ vcardLine {} (("fn;TYPE=work".data) ++ ':' :: (" Bob ".data)) =
        { fn := some (pyStrip (" Bob ".data)) } :=
  ⟨⟨by decide, by decide⟩,
    claim_C7_vcard_recognition.2.2.2.1 {} ("fn;TYPE=work".data) (" Bob ".data)
      (by decide) (by decide)⟩

theorem mem_ite_singleton (x y : α) (P : Prop) [Decidable P] :
    (x ∈ (if P then [y] else [])) ↔ (P ∧ x = y) := by
  by_cases h : P <;> simp [h]

theorem card_body_keys (title description : Option Str) (order : Option Int)
    (duedate : Option Str) (archived : Option Bool) :
    (update_deck_card_body title description order duedate archived).map Prod.fst =
      (if optStrTruthy title = true then [sTitleKey] else []) ++
      (if description.isSome then [sDescriptionKey] else []) ++
      (if order.isSome then [sOrderKey] else []) ++
      (if duedate.isSome then [sDuedateKey] else []) ++
      (if archived.isSome then [sArchivedKey] else []) := by
  cases description <;> cases order <;> cases duedate <;> cases archived <;>
    simp [update_deck_card_body, apply_ite (List.map (Prod.fst (α := Str) (β := Json)))]

theorem stack_body_keys (title : Option Str) (order : Option Int) :
    (update_deck_stack_body title order).map Prod.fst =
      (if optStrTruthy title = true then [sTitleKey] else []) ++
      (if order.isSome then [sOrderKey] else []) := by
  cases order <;>
    simp [update_deck_stack_body, apply_ite (List.map (Prod.fst (α := Str) (β := Json)))]

theorem label_body_keys (title color : Option Str) :
    (update_deck_label_body title color).map Prod.fst =
      (if optStrTruthy title = true then [sTitleKey] else []) ++
      (if optStrTruthy color = true then [sColorKey] else []) := by
  simp [update_deck_label_body, apply_ite (List.map (Prod.fst (α := Str) (β := Json)))]

/-- C8 counterexample: `update_deck_card` guards the title with `if title:`
(truthiness), not `is not None` — passing an empty-string title yields a PUT
body with no "title" key even though the parameter is not None. -/
theorem claim_C8_counterexample :
    update_deck_card_body (some []) none none none none = []
    ∧ some ([] : Str) ≠ none :=
  ⟨rfl, by decide⟩

/-- C8 (amended): in the partial-update PUT bodies, `description`, `order`,
`duedate` and `archived` are present iff their parameter is not None (so
`archived = False` and an empty description are sent), but `title` (card,
stack, label) and the label `color` are present iff the parameter is a
truthy (non-None, non-empty) string: a passed empty string is omitted like
None, and the server's prior value survives for every omitted field. -/
theorem claim_C8_partial_update :
    ∀ (title description duedate color : Option Str) (order : Option Int)
      (archived : Option Bool),
      ((sTitleKey ∈ (update_deck_card_body title description order duedate archived).map Prod.fst)
        ↔ optStrTruthy title = true)
      ∧ ((sDescriptionKey ∈
            (update_deck_card_body title description order duedate archived).map Prod.fst)
        ↔ description ≠ none)
      ∧ ((sOrderKey ∈ (update_deck_card_body title description order duedate archived).map Prod.fst)
        ↔ order ≠ none)
      ∧ ((sDuedateKey ∈
            (update_deck_card_body title description order duedate archived).map Prod.fst)
        ↔ duedate ≠ none)
      ∧ ((sArchivedKey ∈
            (update_deck_card_body title description order duedate archived).map Prod.fst)
        ↔ archived ≠ none)
      ∧ ((sTitleKey ∈ (update_deck_stack_body title order).map Prod.fst)
        ↔ optStrTruthy title = true)
      ∧ ((sOrderKey ∈ (update_deck_stack_body title order).map Prod.fst) ↔ order ≠ none)
      ∧ ((sTitleKey ∈ (update_deck_label_body title color).map Prod.fst)
        ↔ optStrTruthy title = true)
      ∧ ((sColorKey ∈ (update_deck_label_body title color).map Prod.fst)
        ↔ optStrTruthy color = true) := by
  intro title description duedate color order archived
  have hne1 : sTitleKey ≠ sDescriptionKey := by decide
  have hne2 : sTitleKey ≠ sOrderKey := by decide
  have hne3 : sTitleKey ≠ sDuedateKey := by decide
  have hne4 : sTitleKey ≠ sArchivedKey := by decide
  have hne5 : sDescriptionKey ≠ sTitleKey := by decide
  have hne6 : sDescriptionKey ≠ sOrderKey := by decide
  have hne7 : sDescriptionKey ≠ sDuedateKey := by decide
  have hne8 : sDescriptionKey ≠ sArchivedKey := by decide
  have hne9 : sOrderKey ≠ sTitleKey := by decide
  have hne10 : sOrderKey ≠ sDescriptionKey := by decide
  have hne11 : sOrderKey ≠ sDuedateKey := by decide
  have hne12 : sOrderKey ≠ sArchivedKey := by decide
  have hne13 : sDuedateKey ≠ sTitleKey := by decide
  have hne14 : sDuedateKey ≠ sDescriptionKey := by decide
  have hne15 : sDuedateKey ≠ sOrderKey := by decide
  have hne16 : sDuedateKey ≠ sArchivedKey := by decide
  have hne17 : sArchivedKey ≠ sTitleKey := by decide
  have hne18 : sArchivedKey ≠ sDescriptionKey := by decide
  have hne19 : sArchivedKey ≠ sOrderKey := by decide
  have hne20 : sArchivedKey ≠ sDuedateKey := by decide
  have hne21 : sColorKey ≠ sTitleKey := by decide
  have hne22 : sTitleKey ≠ sColorKey := by decide
  refine ⟨?_, ?_, ?_, ?_, ?_, ?_, ?_, ?_, ?_⟩ <;>
    simp only [card_body_keys, stack_body_keys, label_body_keys] <;>
    simp [List.mem_append, mem_ite_singleton, Option.isSome_iff_ne_none,
      hne1, hne2, hne3, hne4, hne5, hne6, hne7, hne8, hne9, hne10, hne11, hne12,
      hne13, hne14, hne15, hne16, hne17, hne18, hne19, hne20, hne21, hne22]

/-- C9: for every contact set delivered by a successful addressbook-query
REPORT and every non-empty search term, the set the pagination slices is a
permutation of the parsed contacts filtered by "term is a case-insensitive
substring of fn, email or tel (OR)", it is sorted ascending by the
case-insensitive fn key, and contacts with empty fn sort first (an
empty-fn contact never appears after a non-empty-fn one... more precisely,
anything before an empty-fn contact also has empty fn). -/
theorem claim_C9_filter_sort :
    ∀ (entries : List (Str × Str)) (pr : HttpResponse) (page limit : Nat) (t : Str),
      strNonEmpty t = true → 1 ≤ page →
      (list_contacts_raw (mkReportResp entries) pr page limit (some t) =
        (some { contacts := ((sortedContacts entries (some t)).drop ((page - 1) * limit)).take limit,
                total := (sortedContacts entries (some t)).length }, none))
      ∧ List.Perm (sortedContacts entries (some t))
          ((reportContacts entries none).filter (fun c => matchContact t c))
      ∧ (∀ c : Contact,
          c ∈ (reportContacts entries none).filter (fun c => matchContact t c) ↔
            (c ∈ reportContacts entries none ∧
              (strContains (pyLower t) (pyLower (c.fn.getD [])) ||
               strContains (pyLower t) (pyLower (c.email.getD [])) ||
               strContains (pyLower t) (pyLower (c.tel.getD []))) = true))
      ∧ List.Pairwise (fun a b => contactLe a b = true) (sortedContacts entries (some t))
      ∧ (∀ (i j : Nat) (hi : i < (sortedContacts entries (some t)).length)
            (hj : j < (sortedContacts entries (some t)).length), i < j →
          ((sortedContacts entries (some t)).get ⟨j, hj⟩).fn.getD [] = [] →
          ((sortedContacts entries (some t)).get ⟨i, hi⟩).fn.getD [] = []) := by
  intro entries pr page limit t ht hp
  have hfilter := reportContacts_filter t ht entries
  have hpw : List.Pairwise (fun a b => contactLe a b = true) (sortedContacts entries (some t)) :=
    pySort_pairwise contactLe contactLe_trans contactLe_total (reportContacts entries (some t))
  refine ⟨list_contacts_raw_mk entries pr page limit (some t), ?_, ?_, hpw, ?_⟩
  · unfold sortedContacts
    rw [hfilter]
    exact pySort_perm contactLe _
  · intro c
    simp [List.mem_filter, matchContact]
  · intro i j hi hj hij hj0
    have hget := List.pairwise_iff_getElem.mp hpw i j hi hj hij
    have hget2 : contactLe ((sortedContacts entries (some t)).get ⟨i, hi⟩)
        ((sortedContacts entries (some t)).get ⟨j, hj⟩) = true := by
      simpa [List.get_eq_getElem] using hget
    have hkey : contactKey ((sortedContacts entries (some t)).get ⟨i, hi⟩) = [] := by
      apply lexLe_nil_right
      have hkj : contactKey ((sortedContacts entries (some t)).get ⟨j, hj⟩) = [] := by
        unfold contactKey
        rw [hj0]
        rfl
      unfold contactLe at hget2
      rw [hkj] at hget2
      exact hget2
    unfold contactKey pyLower at hkey
    exact List.map_eq_nil_iff.mp hkey

/-- C9 witness: the filter/sort facts at a concrete input. -/
theorem claim_C9_filter_sort_witness :
    (strNonEmpty ("a".data) = true ∧ 1 ≤ 1) ∧
    ((list_contacts_raw (mkReportResp []) (mkReportResp []) 1 1 (some ("a".data)) =
        (some { contacts :=
            ((sortedContacts [] (some ("a".data))).drop ((1 - 1) * 1)).take 1,
                total := (sortedContacts [] (some ("a".data))).length }, none))
      ∧ List.Perm (sortedContacts [] (some ("a".data)))
          ((reportContacts [] none).filter (fun c => matchContact ("a".data) c))
      ∧ (∀ c : Contact,
          c ∈ (reportContacts [] none).filter (fun c => matchContact ("a".data) c) ↔
            (c ∈ reportContacts [] none ∧
              (strContains (pyLower ("a".data)) (pyLower (c.fn.getD [])) ||
               strContains (pyLower ("a".data)) (pyLower (c.email.getD [])) ||
               strContains (pyLower ("a".data)) (pyLower (c.tel.getD []))) = true))
      ∧ List.Pairwise (fun a b => contactLe a b = true) (sortedContacts [] (some ("a".data)))
      ∧ (∀ (i j : Nat) (hi : i < (sortedContacts [] (some ("a".data))).length)
            (hj : j < (sortedContacts [] (some ("a".data))).length), i < j →
          ((sortedContacts [] (some ("a".data))).get ⟨j, hj⟩).fn.getD [] = [] →
          ((sortedContacts [] (some ("a".data))).get ⟨i, hi⟩).fn.getD [] = [])) :=
  ⟨⟨by decide, by decide⟩,
    claim_C9_filter_sort [] (mkReportResp []) 1 1 ("a".data) (by decide) (by decide)⟩

/-- C10: `list_contacts_raw` and `get_contact_raw` are total — every
exception site sits inside a `try` — and always return a pair with exactly
one component set: data with no error (REPORT success or fallback success),
or no data with a descriptive error string. -/
theorem claim_C10_raw_totality :
    ∀ (reportResp propfindResp getResp : HttpResponse) (page limit : Nat) (term : Option Str),
      ((∃ r, list_contacts_raw reportResp propfindResp page limit term = (some r, none)) ∨
       (∃ msg, list_contacts_raw reportResp propfindResp page limit term = (none, some msg)))
      ∧ ((∃ c, get_contact_raw getResp = (some c, none)) ∨
         (∃ msg, get_contact_raw getResp = (none, some msg))) := by
  intro reportResp propfindResp getResp page limit term
  constructor
  · unfold list_contacts_raw
    cases h1 : list_contacts_attempt1 reportResp page limit term with
    | ok r => exact Or.inl ⟨r, rfl⟩
    | error e1 =>
      cases h2 : list_contacts_attempt2 propfindResp page limit term with
      | ok r => exact Or.inl ⟨r, rfl⟩
      | error e2 =>
        exact Or.inr ⟨sContactsErrA ++ e1.str ++ sContactsErrB ++ e2.str, rfl⟩
  · unfold get_contact_raw
    cases hs : raise_for_status getResp with
    | ok u =>
      cases u
      exact Or.inl ⟨_parse_vcard getResp.text, rfl⟩
    | error e =>
      exact Or.inr ⟨sGetContactErr ++ e.str, rfl⟩
